import Mathlib

set_option maxHeartbeats 1000000

/-!
Verification development for the PyTorch assistant core
(src/src/pytorch_linter.py): a shallow embedding of the static analyzer
(CodeAnalyzer / analyze_file), the apply-block response parsing in
PyTorchAssistant.handle_chat_request, the model dispatcher
handle_chat_request, the stdin framing loop, and the code-testing
collaborator test_code_func, together with theorems about them.

External effects are made explicit: model invocations are passed in as
functions returning Except (an exception is an error value), inbound
stdin lines arrive already JSON-decoded as Option Json (none models a
json.JSONDecodeError), and the subprocess run in test_code_func is a
parameter from its timeout argument to an outcome.
-/

/-- Python str.strip: drop whitespace from both ends of the string. -/
def pyStrip (s : String) : String :=
  String.mk (((s.data.dropWhile Char.isWhitespace).reverse.dropWhile Char.isWhitespace).reverse)

/-- Python sep.join over a list of strings. -/
def pyJoin (sep : String) : List String → String
  | [] => ""
  | [s] => s
  | s :: rest => s ++ sep ++ pyJoin sep rest

/-! ## The abstract syntax tree

Node kinds of the guest language that the analyzer inspects, each
carrying its 1-based source line number, mirroring the ast module nodes
used by CodeAnalyzer: Name (field id), Attribute (fields value, attr),
Call (fields func, args, keywords), constants, and tuple displays.
Lists of subexpressions are bespoke mutual types so that all recursion
over the tree is structural. A keyword argument carries an optional
name (none models **kwargs) and a value expression. -/

mutual
inductive Expr where
  | name (id : String) (lineno : Nat)
  | attributeE (value : Expr) (attr : String) (lineno : Nat)
  | call (func : Expr) (args : ExprList) (keywords : KeywordList) (lineno : Nat)
  | constant (lineno : Nat)
  | tupleE (elts : ExprList) (lineno : Nat)

inductive ExprList where
  | nil
  | cons (head : Expr) (tail : ExprList)

inductive KeywordList where
  | nil
  | cons (arg : Option String) (value : Expr) (tail : KeywordList)
end

/-- Statements of the guest program: an assignment (fields targets,
value) or an expression statement wrapping one expression. A module is
a List Stmt. -/
inductive Stmt where
  | assign (targets : ExprList) (value : Expr) (lineno : Nat)
  | exprStmt (value : Expr) (lineno : Nat)

/-- Issue record produced by the analyzer: line, message, fix. -/
structure Issue where
  line : Nat
  message : String
  fix : String
deriving DecidableEq, Repr

/-- CodeAnalyzer.device_operations: the set of device-transfer
attribute names. -/
def device_operations : List String := ["cuda", "to", "cpu"]

/-- Test whether any keyword argument is named retain_graph
(any kw.arg equal to the string, as in visit_Call). -/
def kwHasRetainGraph : KeywordList → Bool
  | KeywordList.nil => false
  | KeywordList.cons arg _ rest => arg == some "retain_graph" || kwHasRetainGraph rest

/-- Body of visit_Call before its generic_visit: when the called
function is an attribute access named backward and no keyword argument
is named retain_graph, one Issue is produced at the line of the call. -/
def missingRetainGraphCheck (func : Expr) (keywords : KeywordList) (lineno : Nat) : List Issue :=
  match func with
  | Expr.attributeE _ a _ =>
    if a == "backward" && !(kwHasRetainGraph keywords) then
      [⟨lineno, "Missing retain_graph in backward()", "retain_graph=True"⟩]
    else []
  | _ => []

mutual
/-- ast.walk restricted to the existence check of _has_device_operation:
true when some descendant-or-self Call node has an Attribute func whose
attr is in device_operations. -/
def exprHasDeviceOp : Expr → Bool
  | Expr.name _ _ => false
  | Expr.constant _ => false
  | Expr.attributeE v _ _ => exprHasDeviceOp v
  | Expr.tupleE elts _ => exprListHasDeviceOp elts
  | Expr.call f args kws _ =>
    (match f with
     | Expr.attributeE _ a _ => device_operations.contains a
     | _ => false) || exprHasDeviceOp f || exprListHasDeviceOp args || keywordListHasDeviceOp kws

def exprListHasDeviceOp : ExprList → Bool
  | ExprList.nil => false
  | ExprList.cons e rest => exprHasDeviceOp e || exprListHasDeviceOp rest

def keywordListHasDeviceOp : KeywordList → Bool
  | KeywordList.nil => false
  | KeywordList.cons _ v rest => exprHasDeviceOp v || keywordListHasDeviceOp rest
end

/-- CodeAnalyzer._has_device_operation applied to an Assign node: the
walk covers the node itself (not a Call), its targets and its value. -/
def has_device_operation (targets : ExprList) (value : Expr) : Bool :=
  exprListHasDeviceOp targets || exprHasDeviceOp value

/-- CodeAnalyzer.visit_Assign. Fires when the assigned value is a Call
whose func has an attr field (only Attribute nodes do) equal to Tensor
and the assignment subtree has no device operation. The fix name comes
from targets[0].id when targets is nonempty, which raises
AttributeError (modelled as Except.error) when targets[0] is not a
Name node; with empty targets the fallback name is tensor. visit_Assign
does not call generic_visit, so the subtree is not traversed further. -/
def visit_Assign (targets : ExprList) (value : Expr) (lineno : Nat) : Except String (List Issue) :=
  match value with
  | Expr.call f _ _ _ =>
    match f with
    | Expr.attributeE _ a _ =>
      if a == "Tensor" then
        if !(has_device_operation targets value) then
          match targets with
          | ExprList.nil =>
            Except.ok [⟨lineno, "Tensor created without device assignment", "tensor.to(device)"⟩]
          | ExprList.cons t _ =>
            match t with
            | Expr.name id _ =>
              Except.ok [⟨lineno, "Tensor created without device assignment", id ++ ".to(device)"⟩]
            | _ => Except.error "AttributeError"
        else Except.ok []
      else Except.ok []
    | _ => Except.ok []
  | _ => Except.ok []

mutual
/-- NodeVisitor.visit on an expression node: Call nodes dispatch to
visit_Call (issue check, then generic_visit over func, args and
keyword values in field order); every other kind has no visit_ method
and is traversed by generic_visit. -/
def visitExpr : Expr → List Issue
  | Expr.name _ _ => []
  | Expr.constant _ => []
  | Expr.attributeE v _ _ => visitExpr v
  | Expr.tupleE elts _ => visitExprList elts
  | Expr.call f args kws lineno =>
    missingRetainGraphCheck f kws lineno ++ visitExpr f ++ visitExprList args ++ visitKeywordList kws

def visitExprList : ExprList → List Issue
  | ExprList.nil => []
  | ExprList.cons e rest => visitExpr e ++ visitExprList rest

def visitKeywordList : KeywordList → List Issue
  | KeywordList.nil => []
  | KeywordList.cons _ v rest => visitExpr v ++ visitKeywordList rest
end

/-- NodeVisitor.visit on a statement: Assign dispatches to visit_Assign
(which may raise AttributeError and does not recurse); an expression
statement has no visit_ method, so generic_visit descends into its
value. -/
def visitStmt : Stmt → Except String (List Issue)
  | Stmt.assign targets value lineno => visit_Assign targets value lineno
  | Stmt.exprStmt value _ => Except.ok (visitExpr value)

/-- generic_visit on the Module node: visit each statement in order,
concatenating the issues; an exception aborts the traversal. -/
def visitStmts : List Stmt → Except String (List Issue)
  | [] => Except.ok []
  | s :: rest => do
    let i ← visitStmt s
    let j ← visitStmts rest
    Except.ok (i ++ j)

/-- analyze: run CodeAnalyzer over a parsed module and return the
collected issues (parsing of source text happens before this point). -/
def analyze (body : List Stmt) : Except String (List Issue) :=
  visitStmts body

/-- Text of one report line in analyze_file. -/
def issueLine (i : Issue) : String :=
  "Line " ++ toString i.line ++ ": " ++ i.message ++ ": " ++ i.fix

/-- Report formatting in analyze_file: newline-join one line per issue
when any, else the fixed sentinel. -/
def format_report (issues : List Issue) : String :=
  if issues.isEmpty then "No PyTorch issues found"
  else pyJoin "\n" (issues.map issueLine)

/-- Modelled from the spec (section 4.2 and C9 wording): the line shape
the claim states for one issue. -/
def reportLineSpec (i : Issue) : String :=
  "Line " ++ toString i.line ++ ": " ++ i.message ++ ": " ++ i.fix

/-- Modelled from the spec (section 4.2 and C9 wording): one line per
issue in sequence order, newline-joined with no trailing newline, and
the fixed sentinel for the empty sequence. -/
def reportSpec : List Issue → String
  | [] => "No PyTorch issues found"
  | [i] => reportLineSpec i
  | i :: rest => reportLineSpec i ++ "\n" ++ reportSpec rest

/-! ## Apply-block response parsing

PyTorchAssistant.handle_chat_request scans the model response with the
regular expression pattern of three backticks, python:apply:, a lazily
matched group up to the next newline (the file path), a lazily matched
group up to the next newline-plus-three-backticks (the content), in
DOTALL mode. The scanner below implements exactly that matching
discipline on the character list: at each position try the full match;
on success record the two groups and continue after the match, on
failure move one character right. re.sub with the same pattern removes
exactly the matched spans, so the scanner also returns the residual
text. Laziness means each group ends at the first occurrence of its
terminator; if the close fence never occurs after the first newline it
occurs after no later newline either, so the whole match fails there,
which the single split faithfully captures. -/

/-- Backtick character, by code point. -/
def btChar : Char := Char.ofNat 96

/-- Literal opening marker of the apply-block pattern. -/
def applyOpenLit : List Char := ("```python:apply:").data

/-- Literal first group terminator of the pattern. -/
def nlLit : List Char := ("\n").data

/-- Literal closing fence of the pattern. -/
def nlFenceLit : List Char := ("\n```").data

/-- Split a character list at the first occurrence of the separator
sequence: returns the part before it and the part after it, or none if
the separator does not occur. -/
def splitOnFirstSeq (sep : List Char) : List Char → Option (List Char × List Char)
  | [] => none
  | c :: rest =>
    if sep.isPrefixOf (c :: rest) then some ([], (c :: rest).drop sep.length)
    else
      match splitOnFirstSeq sep rest with
      | some (pre, post) => some (c :: pre, post)
      | none => none

/-- Attempt the apply-block pattern at the start of the list: the open
marker, then group one up to the first newline, then group two up to
the first close fence. Returns the two groups and the text after the
match. -/
def tryMatchAt (s : List Char) : Option (List Char × List Char × List Char) :=
  if applyOpenLit.isPrefixOf s then
    match splitOnFirstSeq nlLit (s.drop applyOpenLit.length) with
    | none => none
    | some (g1, r1) =>
      match splitOnFirstSeq nlFenceLit r1 with
      | none => none
      | some (g2, r2) => some (g1, g2, r2)
  else none

/-- Fueled scan of the whole text: collect all non-overlapping matches
left to right and the residual text with the matched spans removed.
The fuel only needs to cover the length of the list. -/
def scanApplyAux : Nat → List Char → List (List Char × List Char) × List Char
  | 0, s => ([], s)
  | _ + 1, [] => ([], [])
  | fuel + 1, c :: rest =>
    match tryMatchAt (c :: rest) with
    | some (g1, g2, after) =>
      let r := scanApplyAux fuel after
      ((g1, g2) :: r.1, r.2)
    | none =>
      let r := scanApplyAux fuel rest
      (r.1, c :: r.2)

/-- re.finditer plus re.sub of the apply-block pattern over a text. -/
def scanApply (s : List Char) : List (List Char × List Char) × List Char :=
  scanApplyAux s.length s

/-- One entry of the changes sequence. -/
structure Change where
  filePath : String
  newContent : String
deriving DecidableEq, Repr

/-- Envelope returned for every chat request, tagged by outcome. -/
inductive Envelope where
  | explanation (content : String)
  | multiFileChange (explanation : String) (changes : List Change)
  | error (content : String)
deriving DecidableEq, Repr

/-- Candidate filtering in handle_chat_request: strip both groups and
keep the pair only when both are nonempty. -/
def validChanges (ms : List (List Char × List Char)) : List Change :=
  ms.filterMap fun m =>
    let fp := pyStrip (String.mk m.1)
    let nc := pyStrip (String.mk m.2)
    if fp ≠ "" ∧ nc ≠ "" then some ⟨fp, nc⟩ else none

/-- Response handling in PyTorchAssistant.handle_chat_request after the
model call: scan for apply blocks; with at least one valid change,
answer multi_file_change with the stripped residual as explanation;
otherwise answer explanation with the raw response text. -/
def handle_chat_response (response_text : String) : Envelope :=
  let scanned := scanApply response_text.data
  let changes := validChanges scanned.1
  if changes.isEmpty then Envelope.explanation response_text
  else Envelope.multiFileChange (pyStrip (String.mk scanned.2)) changes

/-- Apply-block text as the prompt instructs the model to produce it:
open fence with marker and path, content, close fence. -/
def applyBlock (filePath fileContent : String) : String :=
  "```python:apply:" ++ filePath ++ "\n" ++ fileContent ++ "\n```"

/-- One entry of the files argument: a dict with optional filePath and
content keys, read with .get defaults. -/
structure FileInfo where
  filePath : Option String
  content : Option String

/-- Per-file section of the code context block. -/
def fileContextPart (f : FileInfo) : String :=
  "### FILE: " ++ f.filePath.getD "unknown_file" ++ " ###\n\n```python\n" ++ f.content.getD "" ++ "\n```"

/-- Code context: file sections joined by the fixed delimiter. -/
def buildCodeContext (files : List FileInfo) : String :=
  pyJoin "\n\n---\n\n" (files.map fileContextPart)

/-- Outbound prompt of PyTorchAssistant.handle_chat_request. -/
def chatPrompt (user_input : String) (files : List FileInfo) : String :=
  "\nYou are an expert Python and PyTorch programmer providing an explanation.\n\nYou can use the DeepSeek code tool to generate code changes.\n### User Request:\n" ++ user_input ++ "\n\n### Code Context:\n" ++ buildCodeContext files ++ "\n\n### Instructions:\n1.  Provide a clear and detailed explanation that answers the user\x27s request. Use markdown for formatting.\n2.  Use the search tool to find any relevant documentation for this request.\n2.  Include small, illustrative code snippets in your explanation where necessary, using ````python` blocks.\n3.  **If your explanation suggests specific changes to the user\x27s code, provide the complete, modified code for each changed file at the end of your response. Each file\x27s content must be inside a separate code block, marked with ````python:apply:path/to/your/file.py`.**\n4.  If only one file is changed, use one block. If multiple files are changed, use multiple blocks.\n5.  If no changes are suggested, do not include any ````python:apply` blocks.\n"

/-- PyTorchAssistant.handle_chat_request: build the prompt, invoke the
orchestrator model, parse the response; any exception from the model
call is caught and turned into an error envelope. -/
def PyTorchAssistant.handle_chat_request (user_input : String) (files : List FileInfo)
    (orchestratorInvoke : String → Except String String) : Envelope :=
  match orchestratorInvoke (chatPrompt user_input files) with
  | Except.ok response_text => handle_chat_response response_text
  | Except.error e => Envelope.error ("An error occurred: " ++ e)

/-- Module-level handle_chat_request: model selection and its error
handling. The assistantAvailable flag models whether the global
assistant initialized; mistral_api_key models the environment value
(none for unset or empty). Model calls are collaborators passed in as
functions. -/
def handle_chat_request (user_input : String) (files : List FileInfo) (model : String)
    (assistantAvailable : Bool) (mistral_api_key : Option String)
    (orchestratorInvoke : String → Except String String)
    (codestralInvoke : String → Except String String) : Envelope :=
  if !assistantAvailable then
    Envelope.error "Assistant initialization failed"
  else if model == "local" then
    PyTorchAssistant.handle_chat_request user_input files orchestratorInvoke
  else if model == "codestral" then
    match mistral_api_key with
    | none => Envelope.error "MISTRAL_API_KEY not found in .env file. Please add it to use Codestral."
    | some _ =>
      match codestralInvoke ("You are an expert Python and PyTorch programmer.\n ### User Request: \n" ++ user_input) with
      | Except.ok response_text => Envelope.explanation response_text
      | Except.error e => Envelope.error ("Error during Codestral API call: " ++ e)
  else if model == "claude" then
    Envelope.explanation "Claude Sonnet 4 API support is not implemented yet."
  else
    Envelope.error ("Unknown model selected: " ++ model)

/-! ## Framing loop and the code-testing collaborator -/

/-- Decoded JSON values, as json.loads produces them. -/
inductive Json where
  | null
  | boolean (b : Bool)
  | num (n : Int)
  | str (s : String)
  | arr (elts : List Json)
  | obj (fields : List (String × Json))

/-- Dict lookup on the fields of a JSON object. -/
def jsonGetRaw : List (String × Json) → String → Option Json
  | [], _ => none
  | (k, v) :: rest, key => if k == key then some v else jsonGetRaw rest key

/-- Python dict.get with a None default folded in: a JSON null value
decodes to Python None, so it is identified with an absent key. -/
def pyGet (fields : List (String × Json)) (key : String) : Option Json :=
  match jsonGetRaw fields key with
  | some Json.null => none
  | v => v

/-- Test of data.get with key command equal to the string chat. -/
def isChatCommand (fields : List (String × Json)) : Bool :=
  match jsonGetRaw fields "command" with
  | some (Json.str s) => s == "chat"
  | _ => false

/-- One iteration of the stdin loop for one decoded line. A line that
failed to decode (none) hits the except json.JSONDecodeError handler
and prints the fixed error envelope. A decoded object is dispatched on
its command key: chat lines print the handler response, others print
nothing. A decoded non-object reaches data.get, which raises an
uncaught AttributeError: modelled as Except.error, killing the loop. -/
def processLine (handler : Json → Envelope) : Option Json → Except String (Option Envelope)
  | none => Except.ok (some (Envelope.error "Invalid JSON from extension."))
  | some (Json.obj fields) =>
    if isChatCommand fields then Except.ok (some (handler (Json.obj fields)))
    else Except.ok none
  | some _ => Except.error "AttributeError"

/-- The stdin framing loop over a sequence of decoded inbound lines:
collects the printed envelopes, or dies on the first uncaught
exception, leaving the remaining lines unprocessed. -/
def framingLoop (handler : Json → Envelope) : List (Option Json) → Except String (List Envelope)
  | [] => Except.ok []
  | l :: rest =>
    match processLine handler l with
    | Except.error e => Except.error e
    | Except.ok none => framingLoop handler rest
    | Except.ok (some env) =>
      match framingLoop handler rest with
      | Except.error e => Except.error e
      | Except.ok outs => Except.ok (env :: outs)

/-- Outcome of the subprocess.run call in test_code_func: a completed
process with return code and captured streams, a TimeoutExpired, or
any other exception. -/
inductive RunOutcome where
  | completed (returncode : Int) (stdout : String) (stderr : String)
  | timeoutExpired
  | raised (msg : String)

/-- test_code_func. The input string arrives already decoded (none for
a json.JSONDecodeError); the subprocess execution is a function from
the timeout argument to an outcome, and the code always invokes it
with the fixed timeout 15. The second component records whether the
temporary file written for the candidate code still exists when the
function returns: the finally block removes it only when the
temp_file_path variable was assigned, which happens after the write;
a write that raises (a non-string code value) therefore leaks the
file. Exception messages are abbreviated to their exception names. -/
def test_code_func (input : Option Json) (run : Nat → RunOutcome) : String × Bool :=
  match input with
  | none =>
    ("Error: Invalid JSON input. Please provide a JSON string with \x27code\x27 and \x27expected_output\x27 keys.", false)
  | some (Json.obj fields) =>
    match pyGet fields "code" with
    | none => ("Error: \x27code\x27 key not found in input JSON.", false)
    | some codeVal =>
      match codeVal with
      | Json.str _ =>
        (match run 15 with
         | RunOutcome.completed rc out err =>
           if rc != 0 then ("Execution failed with error:\n" ++ err, false)
           else
             (match pyGet fields "expected_output" with
              | none => ("Code executed successfully without errors.\nOutput:\n" ++ pyStrip out, false)
              | some (Json.str e) =>
                if pyStrip out == pyStrip e then
                  ("Test Passed: The code ran successfully and the output matches the expected result.", false)
                else
                  ("Test Failed: Output did not match expected result.\nExpected:\n---\n" ++ pyStrip e ++ "\n---\n\nActual:\n---\n" ++ pyStrip out ++ "\n---", false)
              | some _ => ("An unexpected error occurred during testing: AttributeError", false))
         | RunOutcome.timeoutExpired => ("An unexpected error occurred during testing: TimeoutExpired", false)
         | RunOutcome.raised m => ("An unexpected error occurred during testing: " ++ m, false))
      | _ => ("An unexpected error occurred during testing: TypeError", true)
  | some _ => ("Error parsing input: AttributeError", false)

/-! ## Helper lemmas -/

/-- Analysis of a one-statement module is the visit of that statement
(the successful case appends the empty issue list of the empty tail). -/
theorem analyze_singleton (s : Stmt) : analyze [s] = visitStmt s := by
  cases h : visitStmt s <;>
    simp [analyze, visitStmts, h, Bind.bind, Except.bind]

/-- Evaluation lemma: joining one line per issue with newlines agrees
with the recursive line-by-line rendering on nonempty sequences. -/
theorem pyJoin_issueLines (i : Issue) (rest : List Issue) :
    pyJoin "\n" ((i :: rest).map issueLine) = reportSpec (i :: rest) := by
  induction rest generalizing i with
  | nil => simp [pyJoin, reportSpec, issueLine, reportLineSpec]
  | cons j rest ih =>
    simp only [List.map_cons] at ih ⊢
    rw [show pyJoin "\n" (issueLine i :: issueLine j :: rest.map issueLine)
        = issueLine i ++ "\n" ++ pyJoin "\n" (issueLine j :: rest.map issueLine) from rfl]
    rw [ih j]
    rfl

/-! ## Claims about the static analyzer -/

/-- Claim C1, counterexample: a source with exactly one assignment of
the literal form x = Tensor(...), a call to the bare allocator name
Tensor, produces no Issue at all (the detector probes the func node
for an attr field, which a Name node lacks), contradicting the claimed
single Issue. -/
theorem claim_C1_counterexample :
    analyze [Stmt.assign (ExprList.cons (Expr.name "x" 1) ExprList.nil)
      (Expr.call (Expr.name "Tensor" 1) ExprList.nil KeywordList.nil 1) 1] = Except.ok []
    ∧ ([] : List Issue) ≠ [⟨1, "Tensor created without device assignment", "x.to(device)"⟩] :=
  ⟨rfl, by decide⟩

/-- Claim C1 as amended: for a source whose single statement assigns a
call whose func is an attribute access ending in Tensor (for example
torch.Tensor(...)) to a simple name x, with no device-transfer call in
the assignment subtree, analyze returns exactly one Issue at that line
with the fixed message and fix x.to(device). -/
theorem claim_C1_theorem (x : String) (lx lf la n : Nat) (base : Expr)
    (args : ExprList) (kws : KeywordList)
    (hdev : exprHasDeviceOp (Expr.call (Expr.attributeE base "Tensor" lf) args kws la) = false) :
    analyze [Stmt.assign (ExprList.cons (Expr.name x lx) ExprList.nil)
      (Expr.call (Expr.attributeE base "Tensor" lf) args kws la) n]
    = Except.ok [⟨n, "Tensor created without device assignment", x ++ ".to(device)"⟩] := by
  have hcond : has_device_operation (ExprList.cons (Expr.name x lx) ExprList.nil)
      (Expr.call (Expr.attributeE base "Tensor" lf) args kws la) = false := by
    unfold has_device_operation
    rw [hdev]
    simp [exprListHasDeviceOp, exprHasDeviceOp]
  rw [analyze_singleton]
  simp [visitStmt, visit_Assign, hcond]

/-- Claim C1, witness: the amended theorem applied at a concrete
single-assignment module. -/
theorem claim_C1_witness :
    exprHasDeviceOp (Expr.call (Expr.attributeE (Expr.name "torch" 1) "Tensor" 1)
      ExprList.nil KeywordList.nil 1) = false
    ∧ analyze [Stmt.assign (ExprList.cons (Expr.name "x" 2) ExprList.nil)
        (Expr.call (Expr.attributeE (Expr.name "torch" 1) "Tensor" 1) ExprList.nil KeywordList.nil 1) 3]
      = Except.ok [⟨3, "Tensor created without device assignment", "x.to(device)"⟩] :=
  ⟨rfl, claim_C1_theorem "x" 2 1 1 3 (Expr.name "torch" 1) ExprList.nil KeywordList.nil rfl⟩

/-- Claim C2, counterexample: a backward call with no retain_graph
keyword sitting inside the right-hand side of an assignment produces
no Issue, because visit_Assign does not call generic_visit, so the
traversal never reaches the call; the claim demands one Issue. -/
theorem claim_C2_counterexample :
    analyze [Stmt.assign (ExprList.cons (Expr.name "x" 1) ExprList.nil)
      (Expr.call (Expr.attributeE (Expr.name "loss" 1) "backward" 1) ExprList.nil KeywordList.nil 1) 1]
    = Except.ok []
    ∧ ([] : List Issue) ≠ [⟨1, "Missing retain_graph in backward()", "retain_graph=True"⟩] :=
  ⟨rfl, by decide⟩

/-- Claim C2 as amended: the traversal does not descend into assignment
statements. A backward call with no retain_graph keyword that the
traversal does reach (here: as an expression statement) yields the
Issue at its line, while the same call as the right-hand side of an
assignment yields nothing. -/
theorem claim_C2_theorem (x : String) (lb lc n m : Nat) (base : Expr)
    (args : ExprList) (kws : KeywordList)
    (hkw : kwHasRetainGraph kws = false)
    (hf : visitExpr base = []) (ha : visitExprList args = []) (hk : visitKeywordList kws = []) :
    analyze [Stmt.exprStmt (Expr.call (Expr.attributeE base "backward" lb) args kws lc) n]
      = Except.ok [⟨lc, "Missing retain_graph in backward()", "retain_graph=True"⟩]
    ∧ analyze [Stmt.assign (ExprList.cons (Expr.name x lb) ExprList.nil)
        (Expr.call (Expr.attributeE base "backward" lb) args kws lc) m]
      = Except.ok [] := by
  constructor
  · rw [analyze_singleton]
    simp [visitStmt, visitExpr, missingRetainGraphCheck, hkw, hf, ha, hk]
  · rw [analyze_singleton]
    simp [visitStmt, visit_Assign]

/-- Claim C2, witness: the amended theorem at a concrete backward call,
once as an expression statement and once inside an assignment. -/
theorem claim_C2_witness :
    analyze [Stmt.exprStmt (Expr.call (Expr.attributeE (Expr.name "loss" 2) "backward" 2)
        ExprList.nil KeywordList.nil 2) 2]
      = Except.ok [⟨2, "Missing retain_graph in backward()", "retain_graph=True"⟩]
    ∧ analyze [Stmt.assign (ExprList.cons (Expr.name "x" 4) ExprList.nil)
        (Expr.call (Expr.attributeE (Expr.name "loss" 2) "backward" 2) ExprList.nil KeywordList.nil 2) 4]
      = Except.ok [] :=
  claim_C2_theorem "x" 2 2 2 4 (Expr.name "loss" 2) ExprList.nil KeywordList.nil rfl rfl rfl rfl

/-- Claim C3, counterexample: a chained assignment with two simple
targets (a = b = torch.Tensor(...)) receives fix a.to(device), the
first target identifier, not the claimed literal fallback tensor. -/
theorem claim_C3_counterexample :
    analyze [Stmt.assign
      (ExprList.cons (Expr.name "a" 1) (ExprList.cons (Expr.name "b" 1) ExprList.nil))
      (Expr.call (Expr.attributeE (Expr.name "torch" 1) "Tensor" 1)
        (ExprList.cons (Expr.constant 1) ExprList.nil) KeywordList.nil 1) 1]
    = Except.ok [⟨1, "Tensor created without device assignment", "a.to(device)"⟩]
    ∧ "a.to(device)" ≠ "tensor.to(device)" :=
  ⟨rfl, by decide⟩

/-- Claim C3 as amended: when the triggering assignment has a nonempty
target list whose first target is a plain name, the fix uses that
first identifier, no matter how many further targets follow; the
literal fallback tensor is used only for an empty target list (which a
real parse never produces); and when the first target is not a plain
name (for example an attribute target), the detector raises
AttributeError, aborting the analysis, rather than falling back. -/
theorem claim_C3_theorem (x attrName : String) (lx lf la lb n : Nat)
    (base tbase : Expr) (rest rest2 args : ExprList) (kws : KeywordList)
    (h1 : has_device_operation (ExprList.cons (Expr.name x lx) rest)
      (Expr.call (Expr.attributeE base "Tensor" lf) args kws la) = false)
    (h2 : exprHasDeviceOp (Expr.call (Expr.attributeE base "Tensor" lf) args kws la) = false)
    (h3 : has_device_operation (ExprList.cons (Expr.attributeE tbase attrName lb) rest2)
      (Expr.call (Expr.attributeE base "Tensor" lf) args kws la) = false) :
    analyze [Stmt.assign (ExprList.cons (Expr.name x lx) rest)
      (Expr.call (Expr.attributeE base "Tensor" lf) args kws la) n]
      = Except.ok [⟨n, "Tensor created without device assignment", x ++ ".to(device)"⟩]
    ∧ analyze [Stmt.assign ExprList.nil
        (Expr.call (Expr.attributeE base "Tensor" lf) args kws la) n]
      = Except.ok [⟨n, "Tensor created without device assignment", "tensor.to(device)"⟩]
    ∧ analyze [Stmt.assign (ExprList.cons (Expr.attributeE tbase attrName lb) rest2)
        (Expr.call (Expr.attributeE base "Tensor" lf) args kws la) n]
      = Except.error "AttributeError" := by
  have h2full : has_device_operation ExprList.nil
      (Expr.call (Expr.attributeE base "Tensor" lf) args kws la) = false := by
    unfold has_device_operation
    rw [h2]
    simp [exprListHasDeviceOp]
  refine ⟨?_, ?_, ?_⟩
  · rw [analyze_singleton]
    simp [visitStmt, visit_Assign, h1]
  · rw [analyze_singleton]
    simp [visitStmt, visit_Assign, h2full]
  · rw [analyze_singleton]
    simp [visitStmt, visit_Assign, h3]

/-- Claim C3, witness: the amended theorem at concrete assignments with
a two-name target list, an empty target list, and an attribute first
target. -/
theorem claim_C3_witness :
    analyze [Stmt.assign (ExprList.cons (Expr.name "a" 1) (ExprList.cons (Expr.name "b" 1) ExprList.nil))
      (Expr.call (Expr.attributeE (Expr.name "torch" 1) "Tensor" 1) ExprList.nil KeywordList.nil 1) 1]
      = Except.ok [⟨1, "Tensor created without device assignment", "a.to(device)"⟩]
    ∧ analyze [Stmt.assign ExprList.nil
        (Expr.call (Expr.attributeE (Expr.name "torch" 1) "Tensor" 1) ExprList.nil KeywordList.nil 1) 1]
      = Except.ok [⟨1, "Tensor created without device assignment", "tensor.to(device)"⟩]
    ∧ analyze [Stmt.assign (ExprList.cons (Expr.attributeE (Expr.name "m" 1) "w" 1) ExprList.nil)
        (Expr.call (Expr.attributeE (Expr.name "torch" 1) "Tensor" 1) ExprList.nil KeywordList.nil 1) 1]
      = Except.error "AttributeError" :=
  claim_C3_theorem "a" "w" 1 1 1 1 1 (Expr.name "torch" 1) (Expr.name "m" 1)
    (ExprList.cons (Expr.name "b" 1) ExprList.nil) ExprList.nil ExprList.nil KeywordList.nil
    rfl rfl rfl

/-- Claim C9, confirmed: the report formatter is deterministic, renders
one line per issue in sequence order in the exact claimed shape,
newline-joined with no trailing newline, and returns the fixed
sentinel on the empty sequence; stated as agreement with a renderer
written from the claim wording. -/
theorem claim_C9_theorem : ∀ issues : List Issue, format_report issues = reportSpec issues := by
  intro issues
  cases issues with
  | nil => simp [format_report, reportSpec]
  | cons i rest =>
    rw [show format_report (i :: rest) = pyJoin "\n" ((i :: rest).map issueLine) from by
      simp [format_report]]
    exact pyJoin_issueLines i rest

/-! ## Claims about the chat response protocol -/

/-- Claim C4, counterexample: with zero apply-block candidates the
explanation envelope carries the raw response text with its
surrounding whitespace intact, not the trimmed text the claim states. -/
theorem claim_C4_counterexample :
    handle_chat_response " hello " = Envelope.explanation " hello "
    ∧ Envelope.explanation " hello " ≠ Envelope.explanation (pyStrip " hello ") :=
  ⟨rfl, by decide⟩

/-- Claim C4 as amended: whenever zero valid apply-block candidates
remain after trimming and dropping empties, the result is the
degenerate case with an empty change list, and the explanation equals
the input response text unchanged: no trimming happens on this path. -/
theorem claim_C4_theorem (text : String)
    (h : validChanges (scanApply text.data).1 = []) :
    handle_chat_response text = Envelope.explanation text := by
  simp [handle_chat_response, h]

/-- Claim C4, witness: the amended theorem at a fence-free response
with surrounding whitespace. -/
theorem claim_C4_witness :
    validChanges (scanApply ("  hi  ").data).1 = []
    ∧ handle_chat_response "  hi  " = Envelope.explanation "  hi  " :=
  ⟨rfl, claim_C4_theorem "  hi  " rfl⟩

/-- Claim C6, confirmed: the chat-request handler converts a throwing
model call into an error envelope with nonempty content instead of
raising. -/
theorem claim_C6_theorem (user_input : String) (files : List FileInfo)
    (orchestratorInvoke : String → Except String String)
    (h : ∀ p, ∃ e, orchestratorInvoke p = Except.error e) :
    ∃ c, PyTorchAssistant.handle_chat_request user_input files orchestratorInvoke
      = Envelope.error c ∧ c ≠ "" := by
  obtain ⟨e, he⟩ := h (chatPrompt user_input files)
  refine ⟨"An error occurred: " ++ e, ?_, ?_⟩
  · simp [PyTorchAssistant.handle_chat_request, he]
  · intro hc
    have hlen := congrArg String.length hc
    rw [String.length_append] at hlen
    rw [show ("An error occurred: ").length = 19 from rfl,
      show ("" : String).length = 0 from rfl] at hlen
    omega

/-- Claim C6, witness: the theorem applied to a model call that always
throws. -/
theorem claim_C6_witness :
    ∃ c, PyTorchAssistant.handle_chat_request "hi" [] (fun _ => Except.error "boom")
      = Envelope.error c ∧ c ≠ "" :=
  claim_C6_theorem "hi" [] (fun _ => Except.error "boom") (fun _ => ⟨"boom", rfl⟩)

/-- Claim C7, counterexample: selecting the unimplemented claude
backend yields an explanation envelope, not the claimed error
envelope. -/
theorem claim_C7_counterexample :
    handle_chat_request "hi" [] "claude" true none
      (fun _ => Except.error "x") (fun _ => Except.error "x")
    = Envelope.explanation "Claude Sonnet 4 API support is not implemented yet." := rfl

/-- Claim C7 as amended: selecting the not-yet-implemented claude
backend returns an explanation envelope carrying the fixed
human-readable not-implemented message (no raw exception), while an
unrecognized model selector returns an error envelope naming it. -/
theorem claim_C7_theorem (user_input : String) (files : List FileInfo)
    (mistral_api_key : Option String) (oi ci : String → Except String String)
    (m : String) (hm1 : m ≠ "local") (hm2 : m ≠ "codestral") (hm3 : m ≠ "claude") :
    handle_chat_request user_input files "claude" true mistral_api_key oi ci
      = Envelope.explanation "Claude Sonnet 4 API support is not implemented yet."
    ∧ handle_chat_request user_input files m true mistral_api_key oi ci
      = Envelope.error ("Unknown model selected: " ++ m) := by
  constructor
  · rfl
  · simp [handle_chat_request, hm1, hm2, hm3]

/-- Claim C7, witness: the amended theorem at the claude selector and
the unknown selector gpt. -/
theorem claim_C7_witness :
    handle_chat_request "hi" [] "claude" true none
      (fun _ => Except.error "x") (fun _ => Except.error "x")
      = Envelope.explanation "Claude Sonnet 4 API support is not implemented yet."
    ∧ handle_chat_request "hi" [] "gpt" true none
        (fun _ => Except.error "x") (fun _ => Except.error "x")
      = Envelope.error ("Unknown model selected: " ++ "gpt") :=
  claim_C7_theorem "hi" [] none _ _ "gpt" (by decide) (by decide) (by decide)

/-- Claim C8, counterexample: one line of valid JSON that is not an
object (the number 3) reaches data.get, raises an uncaught
AttributeError and kills the framing loop instead of yielding an
error envelope. -/
theorem claim_C8_counterexample :
    framingLoop (fun _ => Envelope.explanation "ok") [some (Json.num 3)]
      = Except.error "AttributeError" := rfl

/-- Claim C8 as amended: a line that fails JSON decoding yields the
fixed error envelope and the loop stays alive across arbitrarily many
such lines; and across any sequence of decode failures and decoded
objects the loop survives to the end; but a decodable non-object line
is outside this guarantee (see the counterexample). -/
theorem claim_C8_theorem (handler : Json → Envelope) (n : Nat)
    (lines : List (Option Json))
    (hwf : ∀ l ∈ lines, l = none ∨ ∃ fields, l = some (Json.obj fields)) :
    framingLoop handler (List.replicate n none)
      = Except.ok (List.replicate n (Envelope.error "Invalid JSON from extension."))
    ∧ ∃ outs, framingLoop handler lines = Except.ok outs := by
  constructor
  · induction n with
    | zero => rfl
    | succ k ih => simp [List.replicate_succ, framingLoop, processLine, ih]
  · have main : ∀ ls : List (Option Json),
        (∀ l ∈ ls, l = none ∨ ∃ fields, l = some (Json.obj fields)) →
        ∃ outs, framingLoop handler ls = Except.ok outs := by
      intro ls
      induction ls with
      | nil => exact fun _ => ⟨[], rfl⟩
      | cons l rest ih =>
        intro hwf2
        obtain ⟨outs, ho⟩ := ih (fun x hx => hwf2 x (List.mem_cons_of_mem _ hx))
        rcases hwf2 l (List.mem_cons_self l rest) with hnone | ⟨fields, hf⟩
        · subst hnone
          exact ⟨Envelope.error "Invalid JSON from extension." :: outs,
            by simp [framingLoop, processLine, ho]⟩
        · subst hf
          by_cases hc : isChatCommand fields
          · exact ⟨handler (Json.obj fields) :: outs,
              by simp [framingLoop, processLine, hc, ho]⟩
          · exact ⟨outs, by simp [framingLoop, processLine, hc, ho]⟩
    exact main lines hwf

/-- Claim C8, witness: the amended theorem over two undecodable lines
and over a mixed decode-failure-then-chat-request sequence. -/
theorem claim_C8_witness :
    framingLoop (fun _ => Envelope.explanation "ok") (List.replicate 2 none)
      = Except.ok (List.replicate 2 (Envelope.error "Invalid JSON from extension."))
    ∧ ∃ outs, framingLoop (fun _ => Envelope.explanation "ok")
        [none, some (Json.obj [("command", Json.str "chat")])] = Except.ok outs :=
  claim_C8_theorem (fun _ => Envelope.explanation "ok") 2
    [none, some (Json.obj [("command", Json.str "chat")])]
    (by
      intro l hl
      simp at hl
      rcases hl with rfl | rfl
      · exact Or.inl rfl
      · exact Or.inr ⟨_, rfl⟩)

/-- Claim C10, counterexample: an input whose code value is valid JSON
but not a string (the number 3) makes the write into the temporary
file raise before temp_file_path is assigned; the finally block then
cannot delete the file and the temporary artifact is left behind. -/
theorem claim_C10_counterexample :
    (test_code_func (some (Json.obj [("code", Json.num 3)]))
      (fun _ => RunOutcome.completed 0 "" "")).2 = true := rfl

/-- Claim C10 as amended: the candidate run is invoked only at the
fixed timeout 15, so the result depends on the subprocess behavior
only through that bounded call; the function always returns a
structured result pair; and the temporary file is removed on every
exit path provided the code value is a string (the write succeeds) —
a non-string code value leaks the file (see the counterexample). -/
theorem claim_C10_theorem (input : Option Json) (run run2 : Nat → RunOutcome)
    (hrun : run 15 = run2 15)
    (hstr : ∀ fields c, input = some (Json.obj fields) →
      pyGet fields "code" = some c → ∃ s, c = Json.str s) :
    (test_code_func input run).2 = false
    ∧ test_code_func input run = test_code_func input run2 := by
  cases input with
  | none => exact ⟨rfl, rfl⟩
  | some j =>
    cases j with
    | obj fields =>
      rcases hc : pyGet fields "code" with _ | codeVal
      · simp [test_code_func, hc]
      · obtain ⟨s, rfl⟩ := hstr fields codeVal rfl hc
        constructor
        · simp only [test_code_func, hc]
          cases h15 : run 15 with
          | completed rc out err =>
            by_cases hrc : rc != 0
            · simp [hrc]
            · rcases he : pyGet fields "expected_output" with _ | ev
              · simp [hrc, he]
              · cases ev <;> simp [hrc, he]
                split <;> rfl
          | timeoutExpired => rfl
          | raised m => rfl
        · simp only [test_code_func, hc]
          rw [hrun]
    | null => exact ⟨rfl, rfl⟩
    | boolean b => exact ⟨rfl, rfl⟩
    | num n => exact ⟨rfl, rfl⟩
    | str s => exact ⟨rfl, rfl⟩
    | arr elts => exact ⟨rfl, rfl⟩

/-- Claim C10, witness: the amended theorem at a passing concrete run
with string code, applied to two runs that agree at timeout 15. -/
theorem claim_C10_witness :
    (test_code_func (some (Json.obj [("code", Json.str "print(1)"), ("expected_output", Json.str "1")]))
      (fun _ => RunOutcome.completed 0 "1\n" "")).2 = false
    ∧ test_code_func (some (Json.obj [("code", Json.str "print(1)"), ("expected_output", Json.str "1")]))
        (fun _ => RunOutcome.completed 0 "1\n" "")
      = test_code_func (some (Json.obj [("code", Json.str "print(1)"), ("expected_output", Json.str "1")]))
        (fun t => if t = 15 then RunOutcome.completed 0 "1\n" "" else RunOutcome.timeoutExpired) :=
  claim_C10_theorem (some (Json.obj [("code", Json.str "print(1)"), ("expected_output", Json.str "1")]))
    (fun _ => RunOutcome.completed 0 "1\n" "")
    (fun t => if t = 15 then RunOutcome.completed 0 "1\n" "" else RunOutcome.timeoutExpired)
    rfl
    (by
      intro fields c hf hcv
      cases hf
      cases hcv
      exact ⟨"print(1)", rfl⟩)

/-! ## Lemmas about the apply-block scanner -/

/-- Rebuilding a string from its character data is the identity. -/
theorem string_mk_data (s : String) : String.mk s.data = s := rfl

/-- Appending strings appends their character data. -/
theorem string_mk_append (a b : String) : String.mk (a.data ++ b.data) = a ++ b := by
  cases a
  cases b
  rfl

/-- Head shape of the opening marker literal. -/
theorem applyOpen_cons : applyOpenLit = btChar :: ("``python:apply:").data := by decide

/-- Shape of the closing fence literal. -/
theorem nlFence_cons : nlFenceLit = '\n' :: btChar :: btChar :: btChar :: [] := by decide

/-- A single-character separator splits a list right at its first
occurrence. -/
theorem splitOnFirstSeq_single (a : Char) : ∀ pre post : List Char, (∀ c ∈ pre, c ≠ a) →
    splitOnFirstSeq [a] (pre ++ a :: post) = some (pre, post) := by
  intro pre
  induction pre with
  | nil =>
    intro post _
    simp [splitOnFirstSeq, List.isPrefixOf]
  | cons c pre ih =>
    intro post hne
    have hca : (a == c) = false :=
      beq_eq_false_iff_ne.mpr (fun h => hne c (List.mem_cons_self c pre) h.symm)
    simp [splitOnFirstSeq, List.isPrefixOf, hca,
      ih post (fun x hx => hne x (List.mem_cons_of_mem _ hx))]

/-- The closing-fence separator splits right after a backtick-free
body: the body cannot contain or straddle an occurrence of the fence. -/
theorem splitOnFirstSeq_fence : ∀ content Z : List Char, (∀ c ∈ content, c ≠ btChar) →
    splitOnFirstSeq nlFenceLit (content ++ (nlFenceLit ++ Z)) = some (content, Z) := by
  intro content
  induction content with
  | nil =>
    intro Z _
    rw [List.nil_append, nlFence_cons]
    simp [splitOnFirstSeq, List.isPrefixOf]
  | cons c content ih =>
    intro Z hne
    have hrec := ih Z (fun x hx => hne x (List.mem_cons_of_mem _ hx))
    have hcond : nlFenceLit.isPrefixOf (c :: (content ++ (nlFenceLit ++ Z))) = false := by
      rw [nlFence_cons]
      cases content with
      | nil =>
        simp [List.isPrefixOf, show (btChar == '\n') = false from by decide]
      | cons d content2 =>
        have hd : (btChar == d) = false :=
          beq_eq_false_iff_ne.mpr
            (fun h => hne d (List.mem_cons_of_mem _ (List.mem_cons_self d content2)) h.symm)
        simp [List.isPrefixOf, hd]
    simp [splitOnFirstSeq, hcond, hrec]

/-- The pattern matches at the head of a well-formed apply block:
open marker, newline-free path, newline, backtick-free content,
closing fence. -/
theorem tryMatchAt_fence (path content rest : List Char)
    (hpath : ∀ c ∈ path, c ≠ '\n') (hcontent : ∀ c ∈ content, c ≠ btChar) :
    tryMatchAt (applyOpenLit ++ (path ++ '\n' :: (content ++ (nlFenceLit ++ rest))))
      = some (path, content, rest) := by
  have hpre : applyOpenLit.isPrefixOf
      (applyOpenLit ++ (path ++ '\n' :: (content ++ (nlFenceLit ++ rest)))) = true := by
    rw [List.isPrefixOf_iff_prefix]
    exact List.prefix_append _ _
  rw [tryMatchAt, hpre]
  simp only [if_true]
  rw [List.drop_left]
  rw [show nlLit = ['\n'] from rfl]
  simp only [splitOnFirstSeq_single '\n' path (content ++ (nlFenceLit ++ rest)) hpath,
    splitOnFirstSeq_fence content rest hcontent]

/-- The pattern never matches at a non-backtick character. -/
theorem tryMatchAt_none_head (c : Char) (rest : List Char) (h : c ≠ btChar) :
    tryMatchAt (c :: rest) = none := by
  have hb : (btChar == c) = false := beq_eq_false_iff_ne.mpr (fun h2 => h h2.symm)
  have hp : applyOpenLit.isPrefixOf (c :: rest) = false := by
    rw [applyOpen_cons]
    simp [List.isPrefixOf, hb]
  rw [tryMatchAt, hp]
  simp

/-- A successful split leaves a strictly shorter remainder when the
separator is nonempty. -/
theorem splitOnFirstSeq_post_lt (sep : List Char) (hsep : sep ≠ []) :
    ∀ s pre post : List Char, splitOnFirstSeq sep s = some (pre, post) →
    post.length < s.length := by
  intro s
  induction s with
  | nil =>
    intro pre post h
    simp [splitOnFirstSeq] at h
  | cons c rest ih =>
    intro pre post h
    rw [splitOnFirstSeq] at h
    by_cases hp : sep.isPrefixOf (c :: rest)
    · rw [if_pos hp] at h
      simp only [Option.some.injEq, Prod.mk.injEq] at h
      obtain ⟨-, hpost⟩ := h
      have hsl : 1 ≤ sep.length := by
        cases sep
        · exact absurd rfl hsep
        · simp
      have : post.length = (c :: rest).length - sep.length := by
        rw [← hpost, List.length_drop]
      simp only [List.length_cons] at this ⊢
      omega
    · rw [if_neg hp] at h
      cases hrec : splitOnFirstSeq sep rest with
      | none => rw [hrec] at h; cases h
      | some pr =>
        obtain ⟨pre2, post2⟩ := pr
        rw [hrec] at h
        simp only [Option.some.injEq, Prod.mk.injEq] at h
        obtain ⟨-, hpost⟩ := h
        subst hpost
        have := ih pre2 post2 hrec
        simp only [List.length_cons]
        omega

/-- A successful pattern match consumes at least one character. -/
theorem tryMatchAt_post_lt (s g1 g2 after : List Char)
    (h : tryMatchAt s = some (g1, g2, after)) : after.length < s.length := by
  rw [tryMatchAt] at h
  split at h
  · split at h
    next => cases h
    next g1x r1 h1 =>
      split at h
      next => cases h
      next g2x r2 h2 =>
        simp only [Option.some.injEq, Prod.mk.injEq] at h
        obtain ⟨-, -, hafter⟩ := h
        have l1 : r1.length < (s.drop applyOpenLit.length).length :=
          splitOnFirstSeq_post_lt nlLit (by decide) _ _ _ h1
        have l2 : r2.length < r1.length :=
          splitOnFirstSeq_post_lt nlFenceLit (by decide) _ _ _ h2
        have l3 : (s.drop applyOpenLit.length).length ≤ s.length := by
          rw [List.length_drop]
          omega
        subst hafter
        omega
  · cases h

/-- The fueled scan does not depend on the fuel once it covers the
length of the text. -/
theorem scanApplyAux_fuel : ∀ f1 f2 : Nat, ∀ s : List Char, s.length ≤ f1 → s.length ≤ f2 →
    scanApplyAux f1 s = scanApplyAux f2 s := by
  intro f1
  induction f1 with
  | zero =>
    intro f2 s h1 _
    have hs : s = [] := List.eq_nil_of_length_eq_zero (Nat.le_zero.mp h1)
    subst hs
    cases f2 <;> rfl
  | succ k ih =>
    intro f2 s h1 h2
    cases s with
    | nil => cases f2 <;> rfl
    | cons c rest =>
      obtain ⟨f, rfl⟩ : ∃ f, f2 = f + 1 := by
        cases f2
        · simp at h2
        · exact ⟨_, rfl⟩
      cases hm : tryMatchAt (c :: rest) with
      | some triple =>
        obtain ⟨g1, g2, after⟩ := triple
        have hlt := tryMatchAt_post_lt _ _ _ _ hm
        simp only [List.length_cons] at h1 h2 hlt
        simp only [scanApplyAux, hm]
        rw [ih f after (by omega) (by omega)]
      | none =>
        simp only [List.length_cons] at h1 h2
        simp only [scanApplyAux, hm]
        rw [ih f rest (by omega) (by omega)]

/-- A backtick-free text is scanned to no matches and itself. -/
theorem scanApplyAux_clean : ∀ s : List Char, (∀ c ∈ s, c ≠ btChar) →
    ∀ fuel : Nat, s.length ≤ fuel → scanApplyAux fuel s = ([], s) := by
  intro s
  induction s with
  | nil =>
    intro _ fuel _
    cases fuel <;> rfl
  | cons c rest ih =>
    intro hne fuel hlen
    obtain ⟨f, rfl⟩ : ∃ f, fuel = f + 1 := by
      cases fuel
      · simp at hlen
      · exact ⟨_, rfl⟩
    have hm : tryMatchAt (c :: rest) = none :=
      tryMatchAt_none_head c rest (hne c (List.mem_cons_self c rest))
    simp only [scanApplyAux, hm]
    rw [ih (fun x hx => hne x (List.mem_cons_of_mem _ hx)) f
      (by simp only [List.length_cons] at hlen; omega)]

/-- Scanning a backtick-free part followed by anything scans the tail
on its own and keeps the clean part in the residual. -/
theorem scanApplyAux_clean_append : ∀ s : List Char, (∀ c ∈ s, c ≠ btChar) →
    ∀ t : List Char, ∀ fuel : Nat, s.length + t.length ≤ fuel →
    scanApplyAux fuel (s ++ t)
      = ((scanApplyAux t.length t).1, s ++ (scanApplyAux t.length t).2) := by
  intro s
  induction s with
  | nil =>
    intro _ t fuel hlen
    simp only [List.nil_append]
    exact scanApplyAux_fuel fuel t.length t (by simpa using hlen) (Nat.le_refl _)
  | cons c s ih =>
    intro hne t fuel hlen
    obtain ⟨f, rfl⟩ : ∃ f, fuel = f + 1 := by
      cases fuel
      · simp at hlen
      · exact ⟨_, rfl⟩
    have hm : tryMatchAt (c :: (s ++ t)) = none :=
      tryMatchAt_none_head _ _ (hne c (List.mem_cons_self c s))
    rw [List.cons_append]
    simp only [scanApplyAux, hm]
    rw [ih (fun x hx => hne x (List.mem_cons_of_mem _ hx)) t f
      (by simp only [List.length_cons] at hlen; omega)]
    rfl

/-- Scanning a well-formed apply block records its two groups, removes
the whole block from the residual, and continues after it. -/
theorem scanApplyAux_fence_step (path content rest : List Char)
    (hpath : ∀ c ∈ path, c ≠ '\n') (hcontent : ∀ c ∈ content, c ≠ btChar) :
    ∀ fuel : Nat,
    (applyOpenLit ++ (path ++ '\n' :: (content ++ (nlFenceLit ++ rest)))).length ≤ fuel →
    scanApplyAux fuel (applyOpenLit ++ (path ++ '\n' :: (content ++ (nlFenceLit ++ rest))))
      = ((path, content) :: (scanApplyAux rest.length rest).1,
         (scanApplyAux rest.length rest).2) := by
  intro fuel hlen
  obtain ⟨f, rfl⟩ : ∃ f, fuel = f + 1 := by
    cases fuel
    · rw [applyOpen_cons] at hlen
      simp at hlen
    · exact ⟨_, rfl⟩
  have hm := tryMatchAt_fence path content rest hpath hcontent
  have hshape : applyOpenLit ++ (path ++ '\n' :: (content ++ (nlFenceLit ++ rest)))
      = btChar :: (("``python:apply:").data ++ (path ++ '\n' :: (content ++ (nlFenceLit ++ rest)))) := by
    rw [applyOpen_cons]
    rfl
  rw [hshape] at hm ⊢
  rw [hshape] at hlen
  simp only [scanApplyAux, hm]
  rw [scanApplyAux_fuel f rest.length rest ?hr (Nat.le_refl _)]
  case hr =>
    simp only [List.length_cons, List.length_append] at hlen
    omega

/-- Full scan of prose, one well-formed apply block, prose: one match
carrying the two groups, residual equal to the prose with the whole
block excised. -/
theorem scanApply_single_block (p1 path content p2 : List Char)
    (h1 : ∀ c ∈ p1, c ≠ btChar) (h2 : ∀ c ∈ p2, c ≠ btChar)
    (hpath : ∀ c ∈ path, c ≠ '\n') (hcontent : ∀ c ∈ content, c ≠ btChar) :
    scanApply (p1 ++ (applyOpenLit ++ (path ++ '\n' :: (content ++ (nlFenceLit ++ p2)))))
      = ([(path, content)], p1 ++ p2) := by
  rw [scanApply]
  rw [scanApplyAux_clean_append p1 h1
    (applyOpenLit ++ (path ++ '\n' :: (content ++ (nlFenceLit ++ p2)))) _
    (by simp)]
  rw [scanApplyAux_fence_step path content p2 hpath hcontent _ (Nat.le_refl _)]
  rw [scanApplyAux_clean p2 h2 p2.length (Nat.le_refl _)]

/-- Claim C5, counterexample: a response that is exactly one apply
block with an empty path matches the pattern, its candidate is
dropped, zero valid candidates remain, and the raw response including
the full apply-block markup is returned as the explanation: the markup
is not excised. -/
theorem claim_C5_counterexample :
    (scanApply ("```python:apply:\nbody\n```").data).1 ≠ []
    ∧ handle_chat_response "```python:apply:\nbody\n```"
      = Envelope.explanation "```python:apply:\nbody\n```" :=
  ⟨by decide, rfl⟩

/-- Claim C5 as amended: the excision invariant holds on the
multi-file-change path only. When at least one valid candidate exists,
every pattern-matched region is removed from the explanation: for
prose around one well-formed apply block the explanation is exactly
the surrounding prose joined and stripped, and a matched region whose
candidate was dropped (empty path) is excised as well, as the second
conjunct shows on a concrete response. When zero valid candidates
remain the raw markup is not excised (see the counterexample). -/
theorem claim_C5_theorem (p1 path content p2 : String)
    (h1 : ∀ c ∈ p1.data, c ≠ btChar) (h2 : ∀ c ∈ p2.data, c ≠ btChar)
    (hpath : ∀ c ∈ path.data, c ≠ '\n') (hcontent : ∀ c ∈ content.data, c ≠ btChar)
    (hfp : pyStrip path ≠ "") (hnc : pyStrip content ≠ "") :
    handle_chat_response (p1 ++ applyBlock path content ++ p2)
      = Envelope.multiFileChange (pyStrip (p1 ++ p2)) [⟨pyStrip path, pyStrip content⟩]
    ∧ handle_chat_response "A\n```python:apply:\njunk\n```B\n```python:apply:a.py\ncode\n```C"
      = Envelope.multiFileChange "A\nB\nC" [⟨"a.py", "code"⟩] := by
  constructor
  · have hdata : (p1 ++ applyBlock path content ++ p2).data
        = p1.data ++ (applyOpenLit ++ (path.data ++ '\n' :: (content.data ++ (nlFenceLit ++ p2.data)))) := by
      simp only [applyBlock, String.data_append, List.append_assoc]
      rfl
    have hscan := scanApply_single_block p1.data path.data content.data p2.data h1 h2 hpath hcontent
    have hv : validChanges [(path.data, content.data)] = [⟨pyStrip path, pyStrip content⟩] := by
      simp only [validChanges, List.filterMap_cons, List.filterMap_nil, string_mk_data]
      rw [if_pos ⟨hfp, hnc⟩]
    simp only [handle_chat_response, hdata, hscan, hv]
    simp only [List.isEmpty_cons, Bool.false_eq_true, if_false, string_mk_append]
  · rfl

/-- Claim C5, witness: the amended theorem at a concrete prose, block,
prose response. -/
theorem claim_C5_witness :
    handle_chat_response ("Here is the fix.\n\n" ++ applyBlock "a.py" "x = 1" ++ "\nDone.")
      = Envelope.multiFileChange (pyStrip ("Here is the fix.\n\n" ++ "\nDone."))
        [⟨pyStrip "a.py", pyStrip "x = 1"⟩]
    ∧ handle_chat_response "A\n```python:apply:\njunk\n```B\n```python:apply:a.py\ncode\n```C"
      = Envelope.multiFileChange "A\nB\nC" [⟨"a.py", "code"⟩] :=
  claim_C5_theorem "Here is the fix.\n\n" "a.py" "x = 1" "\nDone."
    (by decide) (by decide) (by decide) (by decide) (by decide) (by decide)
